import Mathlib

/-!
Verification development for a road-sign video inventory tool.

The program is a Flask front-end around a synchronous per-frame annotation
pipeline (`app/processing/video_processor.py`): open the input video, load a
detection model, loop `read → predict → annotate → write`, release resources.
We embed the pipeline as a pure function from an abstract `World` (the
behaviour of the external video library and model on this run) to the trace
of externally visible events plus an optional error, mirroring the Python
control flow line by line.  The annotator is embedded as an emitter of
primitive draw operations (the cv2 calls), since the claims are about which
operations are emitted with which arguments, not about rasterisation.
`config.allowed_file` and `routes.download_file` are embedded directly.
-/

/-- One detection row, as unpacked in the loop body of `process_video`:
`x1, y1, x2, y2, score, class_id = det` with the coordinates and class id
converted by `int(...)`.  The score is kept exact as a rational. -/
structure Detection where
  x1 : Int
  y1 : Int
  x2 : Int
  y2 : Int
  score : ℚ
  class_id : Int
deriving DecidableEq, Repr

/-- A primitive cv2 drawing call on the working frame:
`cv2.rectangle(frame, p1, p2, color, thickness)` or
`cv2.putText(frame, s, org, font, scale, color, thickness)` (we record the
string, origin and color; the font constants are fixed in the source). -/
inductive DrawOp where
  | rect (p1 p2 : Int × Int) (color : Nat × Nat × Nat) (thickness : Int)
  | text (s : String) (org : Int × Int) (color : Nat × Nat × Nat)
deriving DecidableEq, Repr

/-- Round the fraction `a / d` (with `d > 0`) to the nearest integer, ties to
even — the rounding used by Python's fixed-point string formatting.  Stated on
the numerator and denominator so that everything is integer arithmetic:
`a.ediv d` is the floor and `a.emod d ∈ [0, d)` the remainder. -/
def roundHalfEvenDiv (a d : Int) : Int :=
  let n := a.ediv d
  let r := a.emod d
  if 2 * r < d then n
  else if d < 2 * r then n + 1
  else if n.emod 2 = 0 then n else n + 1

/-- Two decimal digits with a leading zero, used for the fractional part. -/
def pad2 (n : Nat) : List Char :=
  [Nat.digitChar (n / 10 % 10), Nat.digitChar (n % 10)]

/-- Embedding of Python's `f"{score:.2f}"` on an exact rational score:
round `100·score = (100·num)/den` half to even, then print
`<sign><integer part>.<2 digits>`. -/
def format2 (q : ℚ) : String :=
  let m := roundHalfEvenDiv (100 * q.num) (q.den : Int)
  String.mk ((if m < 0 then ['-'] else []) ++
    Nat.toDigits 10 (m.natAbs / 100) ++ '.' :: pad2 (m.natAbs % 100))

/-- `class_names.get(class_id, f"Class_{class_id}")` — the model's name table
lookup with the fallback label for unknown ids. -/
def lookupClassName (names : List (Int × String)) (id : Int) : String :=
  match names.lookup id with
  | some s => s
  | none => "Class_" ++ toString id

/-- `label_with_score = f"{label}: {score:.2f}"`. -/
def labelWithScore (names : List (Int × String)) (det : Detection) : String :=
  lookupClassName names det.class_id ++ ": " ++ format2 det.score

/-- The text metrics returned by `cv2.getTextSize`:
`((text_width, text_height), baseline)`.  The real values depend on the font
rasteriser, so the embedding abstracts them as a function of the string. -/
abbrev TextSize := String → (Nat × Nat) × Nat

/-- The label baseline row chosen by the source:
`text_y = y1 - 10 if y1 - 10 > text_height else y1 + text_height + baseline`. -/
def labelBaseY (y1 : Int) (th b : Nat) : Int :=
  if y1 - 10 > (th : Int) then y1 - 10 else y1 + th + b

/-- The three cv2 calls issued for one detection in the loop body of
`process_video`: the bounding rectangle, the filled label background, and the
label text.  The source performs no validity check on the box: every
detection row is drawn. -/
def drawDetection (ts : TextSize) (names : List (Int × String))
    (det : Detection) : List DrawOp :=
  let lws := labelWithScore names det
  let m := ts lws
  let tw : Nat := m.1.1
  let th : Nat := m.1.2
  let b : Nat := m.2
  let ty : Int := labelBaseY det.y1 th b
  [ DrawOp.rect (det.x1, det.y1) (det.x2, det.y2) (0, 255, 0) 2,
    DrawOp.rect (det.x1, ty - th - b) (det.x1 + tw, ty) (0, 255, 0) (-1),
    DrawOp.text lws (det.x1, ty - (b : Int) / 2) (0, 0, 0) ]

/-- The annotation step of the loop body: `annotated_frame = frame.copy()`
followed by the per-detection drawing.  A frame is an abstract token (its
pixel content); the result pairs the base frame (the copy, whose pixels start
identical to the input) with the draw operations applied to it in order.
The input frame itself is never a target of a drawing call. -/
def annotate (ts : TextSize) (names : List (Int × String))
    (frame : Nat) (dets : List Detection) : Nat × List DrawOp :=
  (frame, dets.flatMap (drawDetection ts names))

/-- The environment's behaviour when the loop body runs on one frame:
`model.predict` returns a detection list (`ok`), raises an exception that the
`try/except` around the predict call catches (`raise`, the loop does
`continue`), or an exception is raised later in the body — result extraction,
drawing, or the write — which nothing in `process_video` catches
(`laterRaise`). -/
inductive PredictOutcome where
  | ok (dets : List Detection)
  | raise
  | laterRaise
deriving DecidableEq, Repr

/-- `true` exactly for the `ok` outcome. -/
def PredictOutcome.isOk : PredictOutcome → Bool
  | .ok _ => true
  | _ => false

/-- `true` exactly for the uncaught-exception outcome. -/
def PredictOutcome.isCrash : PredictOutcome → Bool
  | .laterRaise => true
  | _ => false

/-- One frame yielded by `cap.read()` (the frame's pixel content as an
abstract token) together with the environment's behaviour on it. -/
structure FrameStep where
  frame : Nat
  outcome : PredictOutcome
deriving DecidableEq, Repr

/-- Externally visible events of one `process_video` run, in order:
the successful `cap.isOpened()` source open, the `cv2.VideoWriter(...)`
construction (which creates the output file), frame reads, frame writes
(carrying the written frame: base pixels plus draw operations), and the two
releases. -/
inductive Event where
  | sourceOpened
  | sinkConstructed
  | frameRead (frame : Nat)
  | frameWritten (f : Nat × List DrawOp)
  | sourceReleased
  | sinkReleased
deriving DecidableEq, Repr

/-- Errors `process_video` can raise: the re-raised model-load exception, the
`IOError` for an unopenable source, the `IOError` for an unopenable sink, and
an uncaught exception escaping the frame loop. -/
inductive PErr where
  | modelLoadError
  | ioErrorSourceOpen
  | ioErrorSinkOpen
  | unhandledLoop
deriving DecidableEq, Repr

/-- The behaviour of the external libraries on one `process_video` call:
whether `YOLO(model_path)` succeeds, the model's `names` table, whether the
source and sink open, the frames the source yields with the per-frame
environment behaviour, and the text metrics function. -/
structure World where
  modelLoads : Bool
  names : List (Int × String)
  capOpens : Bool
  writerOpens : Bool
  steps : List FrameStep
  textSize : TextSize

/-- The `while True` loop of `process_video` followed by the two release
calls.  Per iteration: `cap.read()` (a `frameRead` event; an empty list is
`ret == False`, breaking the loop), then the predict `try/except`
(`raise` ⇒ `continue`, skipping the rest of the body, so the frame is not
written), then annotation and `video_writer.write` (a `frameWritten` event).
A `laterRaise` outcome escapes the loop before the write; the releases after
the loop are then never reached. -/
def runLoop (ts : TextSize) (names : List (Int × String)) :
    List FrameStep → List Event × Option PErr
  | [] => ([Event.sourceReleased, Event.sinkReleased], none)
  | s :: rest =>
    match s.outcome with
    | .raise =>
      (Event.frameRead s.frame :: (runLoop ts names rest).1,
       (runLoop ts names rest).2)
    | .ok dets =>
      (Event.frameRead s.frame ::
         Event.frameWritten (annotate ts names s.frame dets) ::
           (runLoop ts names rest).1,
       (runLoop ts names rest).2)
    | .laterRaise => ([Event.frameRead s.frame], some PErr.unhandledLoop)

/-- Embedding of `process_video`, following the source's order:
load the model (failure re-raises before anything else), open the source
(`isOpened` false raises `IOError` before the writer is constructed),
construct the writer (`isOpened` false releases the source and raises
`IOError`), then run the frame loop. -/
def process_video (w : World) : List Event × Option PErr :=
  if w.modelLoads = false then ([], some PErr.modelLoadError)
  else if w.capOpens = false then ([], some PErr.ioErrorSourceOpen)
  else if w.writerOpens = false then
    ([Event.sourceOpened, Event.sinkConstructed, Event.sourceReleased],
     some PErr.ioErrorSinkOpen)
  else
    (Event.sourceOpened :: Event.sinkConstructed ::
       (runLoop w.textSize w.names w.steps).1,
     (runLoop w.textSize w.names w.steps).2)

/-- `true` exactly for a `frameRead` event. -/
def Event.isRead : Event → Bool
  | .frameRead _ => true
  | _ => false

/-- `true` exactly for a `frameWritten` event. -/
def Event.isWrite : Event → Bool
  | .frameWritten _ => true
  | _ => false

/-- Number of frames successfully read from the source in a trace. -/
def readCount (t : List Event) : Nat := (t.filter Event.isRead).length

/-- Number of frames written to the sink in a trace. -/
def writtenCount (t : List Event) : Nat := (t.filter Event.isWrite).length

/-- The frames written to the sink, in order. -/
def writtenFrames (t : List Event) : List (Nat × List DrawOp) :=
  t.filterMap fun e =>
    match e with
    | .frameWritten f => some f
    | _ => none

/-- Response of the `/download/<filename>` route: either
`send_from_directory(output_dir, safe_filename, as_attachment=True)` or a
`redirect(url_for('main.index'))` (each failure branch flashes a message and
redirects to the index page). -/
inductive DownloadResponse where
  | serveFile (dir name : String)
  | redirectIndex
deriving DecidableEq, Repr

/-- Embedding of `routes.download_file`.  `secure` is werkzeug's
`secure_filename`; `fileExists` is `os.path.exists` on the joined path inside
the output directory (the filesystem is taken as stable across the request,
so `send_from_directory`'s `FileNotFoundError` branch coincides with the
`os.path.exists` check and also ends in a redirect). -/
def download_file (secure : String → String) (fileExists : String → Bool)
    (output_dir filename : String) : DownloadResponse :=
  let safe := secure filename
  if safe ≠ filename then DownloadResponse.redirectIndex
  else if fileExists safe = false then DownloadResponse.redirectIndex
  else DownloadResponse.serveFile output_dir safe

/-- `config.ALLOWED_EXTENSIONS = {'mp4', 'avi', 'mov', 'mkv'}`. -/
def ALLOWED_EXTENSIONS : List String := ["mp4", "avi", "mov", "mkv"]

/-- Python's `filename.rsplit('.', 1)[1]`: the characters after the last
`'.'`, or `none` when there is no `'.'` (structured as the right-to-left
single split the source performs). -/
def pyRsplitExt : List Char → Option (List Char)
  | [] => none
  | a :: rest =>
    match pyRsplitExt rest with
    | some post => some post
    | none => if a = '.' then some rest else none

/-- Embedding of `config.allowed_file`:
`'.' in filename and filename.rsplit('.', 1)[1].lower() in ALLOWED_EXTENSIONS`
(lowercasing is ASCII case folding, which covers the extension alphabet). -/
def allowed_file (filename : String) : Bool :=
  filename.data.contains '.' &&
    match pyRsplitExt filename.data with
    | some ext => ALLOWED_EXTENSIONS.contains (String.mk (ext.map Char.toLower))
    | none => false

/-- `true` for every character other than `'.'`. -/
def notDot (c : Char) : Bool := c ≠ '.'

/-- Formalised from the claim's words: the substring after the last `'.'`,
read off as the longest dot-free suffix. -/
def suffixAfterLastDot (s : String) : List Char :=
  (s.data.reverse.takeWhile notDot).reverse

/-- Number of characters after the last `'.'` of a string (the digits after
the decimal point, for the output of `format2`). -/
def decimalsAfter (s : String) : Nat :=
  (s.data.reverse.takeWhile notDot).length

/-- The label strings among a list of drawing operations, in order. -/
def textStrings (ops : List DrawOp) : List String :=
  ops.filterMap fun op =>
    match op with
    | .text s _ _ => some s
    | _ => none

/-- The frames the frame loop writes when every step completes: the annotated
copies of exactly the frames whose inference succeeded, in read order. -/
def expectedWritten (ts : TextSize) (names : List (Int × String))
    (steps : List FrameStep) : List (Nat × List DrawOp) :=
  steps.filterMap fun s =>
    match s.outcome with
    | .ok dets => some (annotate ts names s.frame dets)
    | _ => none

/-- Formalised from the spec's words: a valid detection box satisfies
`x1 < x2` and `y1 < y2`. -/
def specBoxValid (d : Detection) : Bool :=
  d.x1 < d.x2 && d.y1 < d.y2

/-- Formalised from the claim's words: the label text drawn with baseline-left
origin `(x, baseY)` and metrics `(tw, th)` lies entirely inside a
`fw × fh` frame. -/
def specTextInFrame (fw fh x baseY : Int) (tw th : Nat) : Bool :=
  0 ≤ x && x + tw ≤ fw && 0 ≤ baseY - th && baseY ≤ fh

/-- Text metrics that report zero-size text (used where metrics are
irrelevant). -/
def tsZero : TextSize := fun _ => ((0, 0), 0)

/-- Sample text metrics: 50 px wide, 10 px tall, baseline 4. -/
def tsSample : TextSize := fun _ => ((50, 10), 4)

/-- A sample model name table with a single class. -/
def namesSample : List (Int × String) := [(3, "stop")]

/-- A well-formed detection whose class id is in `namesSample`. -/
def detSample : Detection :=
  { x1 := 10, y1 := 40, x2 := 60, y2 := 90, score := mkRat 9 10, class_id := 3 }

/-- A well-formed detection whose class id is not in `namesSample`. -/
def detUnknown : Detection :=
  { x1 := 10, y1 := 40, x2 := 60, y2 := 90, score := mkRat 9 10, class_id := 7 }

/-- A degenerate detection: zero-width box (`x1 = x2`). -/
def detDegenerate : Detection :=
  { x1 := 5, y1 := 5, x2 := 5, y2 := 9, score := mkRat 9 10, class_id := 2 }

/-- A detection near the right edge of a 100×100 frame: with `tsSample`
metrics its label text extends to column 140. -/
def detOverflow : Detection :=
  { x1 := 90, y1 := 50, x2 := 95, y2 := 60, score := mkRat 1 2, class_id := 0 }

/-- A run on which the model fails to load. -/
def wModelFail : World :=
  { modelLoads := false, names := [], capOpens := true, writerOpens := true,
    steps := [], textSize := tsZero }

/-- A run on which the input video cannot be opened. -/
def wCapFail : World :=
  { modelLoads := true, names := [], capOpens := false, writerOpens := true,
    steps := [], textSize := tsZero }

/-- A run on which the sink cannot be opened after the source opened. -/
def wSinkFail : World :=
  { modelLoads := true, names := [], capOpens := true, writerOpens := false,
    steps := [{ frame := 0, outcome := PredictOutcome.ok [] }],
    textSize := tsZero }

/-- A run with a single frame whose inference raises (and is caught). -/
def wInferFail : World :=
  { modelLoads := true, names := [], capOpens := true, writerOpens := true,
    steps := [{ frame := 0, outcome := PredictOutcome.raise }],
    textSize := tsZero }

/-- A run with a single frame on which an uncaught exception escapes the
loop. -/
def wLoopCrash : World :=
  { modelLoads := true, names := [], capOpens := true, writerOpens := true,
    steps := [{ frame := 0, outcome := PredictOutcome.laterRaise }],
    textSize := tsZero }

/-- A three-frame run: one frame with a detection, one caught inference
failure, one frame with no detections. -/
def wMixed : World :=
  { modelLoads := true, names := namesSample, capOpens := true,
    writerOpens := true,
    steps := [{ frame := 1, outcome := PredictOutcome.ok [detSample] },
              { frame := 2, outcome := PredictOutcome.raise },
              { frame := 3, outcome := PredictOutcome.ok [] }],
    textSize := tsSample }

lemma runLoop_noCrash (ts : TextSize) (names : List (Int × String)) :
    ∀ steps : List FrameStep, (∀ s ∈ steps, s.outcome.isCrash = false) →
      (runLoop ts names steps).2 = none ∧
      readCount (runLoop ts names steps).1 = steps.length ∧
      writtenCount (runLoop ts names steps).1 =
        (steps.filter fun s => s.outcome.isOk).length ∧
      writtenFrames (runLoop ts names steps).1 = expectedWritten ts names steps
  | [], _ => by
      simp [runLoop, readCount, writtenCount, writtenFrames, expectedWritten,
        Event.isRead, Event.isWrite]
  | s :: rest, h => by
      have hs := h s (List.mem_cons_self s rest)
      have ih := runLoop_noCrash ts names rest
        fun x hx => h x (List.mem_cons_of_mem s hx)
      cases ho : s.outcome with
      | raise =>
        simp [runLoop, ho, readCount, writtenCount, writtenFrames,
          expectedWritten, Event.isRead, Event.isWrite,
          PredictOutcome.isOk] at ih ⊢
        exact ⟨ih.1, ih.2.1, ih.2.2.1, ih.2.2.2⟩
      | ok dets =>
        simp [runLoop, ho, readCount, writtenCount, writtenFrames,
          expectedWritten, Event.isRead, Event.isWrite,
          PredictOutcome.isOk] at ih ⊢
        exact ⟨ih.1, ih.2.1, ih.2.2.1, ih.2.2.2⟩
      | laterRaise =>
        rw [ho] at hs
        simp [PredictOutcome.isCrash] at hs

lemma runLoop_crash (ts : TextSize) (names : List (Int × String)) :
    ∀ (pre : List FrameStep) (f : Nat) (post : List FrameStep),
      (∀ s ∈ pre, s.outcome.isCrash = false) →
      (runLoop ts names
          (pre ++ { frame := f, outcome := PredictOutcome.laterRaise } :: post)).2 =
        some PErr.unhandledLoop ∧
      Event.sourceReleased ∉
        (runLoop ts names
          (pre ++ { frame := f, outcome := PredictOutcome.laterRaise } :: post)).1 ∧
      Event.sinkReleased ∉
        (runLoop ts names
          (pre ++ { frame := f, outcome := PredictOutcome.laterRaise } :: post)).1
  | [], f, post, _ => by simp [runLoop]
  | s :: pre, f, post, h => by
      have hs := h s (List.mem_cons_self s pre)
      have ih := runLoop_crash ts names pre f post
        fun x hx => h x (List.mem_cons_of_mem s hx)
      cases ho : s.outcome with
      | raise =>
        simp only [List.cons_append, runLoop, ho]
        simp only [List.mem_cons] at ih ⊢
        refine ⟨ih.1, ?_, ?_⟩ <;> simp_all
      | ok dets =>
        simp only [List.cons_append, runLoop, ho]
        simp only [List.mem_cons] at ih ⊢
        refine ⟨ih.1, ?_, ?_⟩ <;> simp_all
      | laterRaise =>
        rw [ho] at hs
        simp [PredictOutcome.isCrash] at hs

lemma runLoop_mem_written (ts : TextSize) (names : List (Int × String)) :
    ∀ (steps : List FrameStep) (f : Nat) (dets : List Detection),
      (∀ s ∈ steps, s.outcome.isCrash = false) →
      ({ frame := f, outcome := PredictOutcome.ok dets } : FrameStep) ∈ steps →
      Event.frameWritten (annotate ts names f dets) ∈ (runLoop ts names steps).1
  | [], _, _, _, hmem => by simp at hmem
  | s :: rest, f, dets, h, hmem => by
      rcases List.mem_cons.mp hmem with heq | htail
      · subst heq
        simp [runLoop]
      · have ih := runLoop_mem_written ts names rest f dets
          (fun x hx => h x (List.mem_cons_of_mem s hx)) htail
        have hs := h s (List.mem_cons_self s rest)
        cases ho : s.outcome with
        | raise => simp [runLoop, ho, ih]
        | ok d => simp [runLoop, ho, ih]
        | laterRaise =>
          rw [ho] at hs
          simp [PredictOutcome.isCrash] at hs

lemma digitChar_ne_dot (d : Nat) : Nat.digitChar d ≠ '.' := by
  rcases Nat.lt_or_ge d 16 with h | h
  · interval_cases d <;> decide
  · have h0 : d ≠ 0 := by omega
    have h1 : d ≠ 1 := by omega
    have h2 : d ≠ 2 := by omega
    have h3 : d ≠ 3 := by omega
    have h4 : d ≠ 4 := by omega
    have h5 : d ≠ 5 := by omega
    have h6 : d ≠ 6 := by omega
    have h7 : d ≠ 7 := by omega
    have h8 : d ≠ 8 := by omega
    have h9 : d ≠ 9 := by omega
    have h10 : d ≠ 10 := by omega
    have h11 : d ≠ 11 := by omega
    have h12 : d ≠ 12 := by omega
    have h13 : d ≠ 13 := by omega
    have h14 : d ≠ 14 := by omega
    have h15 : d ≠ 15 := by omega
    simp [Nat.digitChar, h0, h1, h2, h3, h4, h5, h6, h7, h8, h9, h10, h11,
      h12, h13, h14, h15]

lemma takeWhile_append_all (l m : List Char) (h : '.' ∉ l) :
    ((l ++ '.' :: m).takeWhile notDot) = l := by
  induction l with
  | nil => simp [List.takeWhile_cons, notDot]
  | cons a l ih =>
    simp only [List.mem_cons, not_or] at h
    have ha : notDot a = true := by
      simp [notDot]
      exact fun hh => h.1 hh.symm
    simp [List.takeWhile_cons, ha, ih h.2]

lemma takeWhile_append_stop (l m : List Char) (h : '.' ∈ l) :
    ((l ++ m).takeWhile notDot) = l.takeWhile notDot := by
  induction l with
  | nil => simp at h
  | cons a l ih =>
    by_cases ha : a = '.'
    · subst ha
      simp [List.takeWhile_cons, notDot]
    · rcases List.mem_cons.mp h with h1 | h2
      · exact absurd h1.symm ha
      · simp [List.takeWhile_cons, ih h2]

lemma format2_two_decimals (q : ℚ) : decimalsAfter (format2 q) = 2 := by
  unfold format2 decimalsAfter
  have hpad : '.' ∉
      (pad2 ((roundHalfEvenDiv (100 * q.num) (q.den : Int)).natAbs % 100)).reverse := by
    simp [pad2]
    exact ⟨fun hh => digitChar_ne_dot _ hh.symm,
           fun hh => digitChar_ne_dot _ hh.symm⟩
  show ((((if roundHalfEvenDiv (100 * q.num) (q.den : Int) < 0 then ['-'] else []) ++
      Nat.toDigits 10 ((roundHalfEvenDiv (100 * q.num) (q.den : Int)).natAbs / 100) ++
      '.' :: pad2 ((roundHalfEvenDiv (100 * q.num) (q.den : Int)).natAbs % 100)).reverse.takeWhile
        notDot).length) = 2
  rw [List.reverse_append, List.reverse_append, List.reverse_cons]
  rw [List.append_assoc, List.singleton_append]
  rw [takeWhile_append_all _ _ hpad]
  simp [pad2]

lemma pyRsplitExt_eq_none (l : List Char) (h : '.' ∉ l) : pyRsplitExt l = none := by
  induction l with
  | nil => simp [pyRsplitExt]
  | cons a l ih =>
    simp only [List.mem_cons, not_or] at h
    have ha : ¬ a = '.' := fun hh => h.1 hh.symm
    simp [pyRsplitExt, ih h.2, ha]

lemma pyRsplitExt_eq_suffix (l : List Char) (h : '.' ∈ l) :
    pyRsplitExt l = some ((l.reverse.takeWhile notDot).reverse) := by
  induction l with
  | nil => simp at h
  | cons a l ih =>
    by_cases hl : '.' ∈ l
    · rw [List.reverse_cons, takeWhile_append_stop _ _ (by simpa using hl)]
      simp [pyRsplitExt, ih hl]
    · have ha : a = '.' := by
        rcases List.mem_cons.mp h with h1 | h2
        · exact h1.symm
        · exact absurd h2 hl
      subst ha
      rw [List.reverse_cons, takeWhile_append_all _ _ (by simpa using hl)]
      simp [pyRsplitExt, pyRsplitExt_eq_none l hl]

/-- Claim C10: `allowed_file` returns `true` iff the filename contains a
`'.'` and the substring after the last `'.'` is, after lowercasing, one of
mp4/avi/mov/mkv; hence the check is case-insensitive (`"video.MP4"` is
accepted) and a dot-free filename (`"noext"`) is rejected. -/
theorem allowedFileLastDotCaseInsensitive (s : String) :
    (allowed_file s = true ↔
      s.data.contains '.' = true ∧
      ALLOWED_EXTENSIONS.contains
        (String.mk ((suffixAfterLastDot s).map Char.toLower)) = true) ∧
    allowed_file "video.MP4" = true ∧ allowed_file "noext" = false := by
  refine ⟨?_, by decide, by decide⟩
  cases hc : s.data.contains '.' with
  | false =>
    have hm : '.' ∉ s.data := fun hm => by
      have h2 := List.elem_iff.mpr hm
      rw [List.contains] at hc
      rw [h2] at hc
      exact Bool.noConfusion hc
    simp [allowed_file, hc, pyRsplitExt_eq_none s.data hm]
  | true =>
    have hm : '.' ∈ s.data := List.elem_iff.mp hc
    simp [allowed_file, hc, pyRsplitExt_eq_suffix s.data hm, suffixAfterLastDot,
      hm]

/-- Instance of the C10 theorem at a concrete mixed-case filename. -/
theorem allowedFileLastDotCaseInsensitive_witness :
    allowed_file "clip.mKv" = true :=
  (allowedFileLastDotCaseInsensitive "clip.mKv").1.mpr ⟨by decide, by decide⟩

/-- Claim C1, counterexample: on a run whose single frame's inference raises,
the run completes without error but zero frames are written while one frame
was read — the `continue` skips the write, so the frame is not written
"annotated with zero boxes" as the claim states. -/
theorem frameSkippedOnInferenceFailure :
    (process_video wInferFail).2 = none ∧
    readCount (process_video wInferFail).1 = 1 ∧
    writtenCount (process_video wInferFail).1 = 0 ∧
    writtenCount (process_video wInferFail).1 ≠
      readCount (process_video wInferFail).1 := by decide

/-- Claim C1, amended: on a run where the model loads, both streams open and
no uncaught exception occurs, the run completes without error, every source
frame is read, and the number of frames written equals the number of frames
whose inference succeeded — frames whose inference raises are logged,
skipped entirely (not written), and the loop continues. -/
theorem writtenCountEqualsInferredOk (w : World) (hm : w.modelLoads = true)
    (hc : w.capOpens = true) (hw : w.writerOpens = true)
    (hnc : ∀ s ∈ w.steps, s.outcome.isCrash = false) :
    (process_video w).2 = none ∧
    readCount (process_video w).1 = w.steps.length ∧
    writtenCount (process_video w).1 =
      (w.steps.filter fun s => s.outcome.isOk).length := by
  have h := runLoop_noCrash w.textSize w.names w.steps hnc
  simp [process_video, hm, hc, hw, readCount, writtenCount, Event.isRead,
    Event.isWrite] at h ⊢
  exact ⟨h.1, h.2.1, h.2.2.1⟩

/-- Instance of the amended C1 theorem on a three-frame run with one caught
inference failure: 3 frames read, 2 written. -/
theorem writtenCountEqualsInferredOk_witness :
    (process_video wMixed).2 = none ∧
    readCount (process_video wMixed).1 = wMixed.steps.length ∧
    writtenCount (process_video wMixed).1 =
      (wMixed.steps.filter fun s => s.outcome.isOk).length :=
  writtenCountEqualsInferredOk wMixed rfl rfl rfl (by decide)

/-- Claim C2, counterexample: on a run where an uncaught exception escapes
the frame loop, the error propagates with neither the source nor the sink
released — there is no `try/finally` around the loop. -/
theorem loopCrashReleasesNothing :
    (process_video wLoopCrash).2 = some PErr.unhandledLoop ∧
    Event.sourceReleased ∉ (process_video wLoopCrash).1 ∧
    Event.sinkReleased ∉ (process_video wLoopCrash).1 := by decide

/-- Claim C2, amended: if the sink fails to open after the source was opened,
the source is released before the `IOError` is raised; but if an unhandled
exception occurs during the frame-processing loop, the error propagates
without the source or sink being released. -/
theorem sinkFailReleasesSourceLoopCrashLeaks (w : World)
    (pre post : List FrameStep) (f : Nat) :
    (w.modelLoads = true → w.capOpens = true → w.writerOpens = false →
      process_video w =
        ([Event.sourceOpened, Event.sinkConstructed, Event.sourceReleased],
         some PErr.ioErrorSinkOpen)) ∧
    (w.modelLoads = true → w.capOpens = true → w.writerOpens = true →
      w.steps = pre ++ { frame := f, outcome := PredictOutcome.laterRaise } :: post →
      (∀ s ∈ pre, s.outcome.isCrash = false) →
      (process_video w).2 = some PErr.unhandledLoop ∧
      Event.sourceReleased ∉ (process_video w).1 ∧
      Event.sinkReleased ∉ (process_video w).1) := by
  constructor
  · intro hm hc hw
    simp [process_video, hm, hc, hw]
  · intro hm hc hw hsteps hpre
    have h := runLoop_crash w.textSize w.names pre f post hpre
    rw [← hsteps] at h
    simp [process_video, hm, hc, hw]
    exact ⟨h.1, h.2.1, h.2.2⟩

/-- Instances of the amended C2 theorem: the sink-failure run releases the
source before raising; the loop-crash run releases nothing. -/
theorem sinkFailReleasesSourceLoopCrashLeaks_witness :
    process_video wSinkFail =
      ([Event.sourceOpened, Event.sinkConstructed, Event.sourceReleased],
       some PErr.ioErrorSinkOpen) ∧
    ((process_video wLoopCrash).2 = some PErr.unhandledLoop ∧
     Event.sourceReleased ∉ (process_video wLoopCrash).1 ∧
     Event.sinkReleased ∉ (process_video wLoopCrash).1) :=
  ⟨(sinkFailReleasesSourceLoopCrashLeaks wSinkFail [] [] 0).1 rfl rfl rfl,
   (sinkFailReleasesSourceLoopCrashLeaks wLoopCrash [] [] 0).2 rfl rfl rfl rfl
     (by simp)⟩

/-- Claim C3, counterexample: a degenerate box (`x1 = x2`, invalid per the
spec's validity predicate) is not skipped — the rectangle, label background
and label text are all drawn for it. -/
theorem degenerateBoxStillDrawn :
    specBoxValid detDegenerate = false ∧
    drawDetection tsSample [] detDegenerate =
      [DrawOp.rect (5, 5) (5, 9) (0, 255, 0) 2,
       DrawOp.rect (5, 5) (55, 19) (0, 255, 0) (-1),
       DrawOp.text "Class_2: 0.90" (5, 17) (0, 0, 0)] := by
  decide

lemma drawDetection_length (ts : TextSize) (names : List (Int × String))
    (det : Detection) : (drawDetection ts names det).length = 3 := by
  simp [drawDetection]

/-- Claim C3, amended: the annotation step draws every detection
unconditionally — exactly three drawing operations per detection, and every
detection's bounding rectangle is emitted regardless of box validity; the
drawing itself is total (never raises; cv2 clips out-of-range coordinates). -/
theorem everyDetectionDrawnUnfiltered (ts : TextSize)
    (names : List (Int × String)) (frame : Nat) (dets : List Detection) :
    (annotate ts names frame dets).2.length = 3 * dets.length ∧
    ∀ det ∈ dets,
      DrawOp.rect (det.x1, det.y1) (det.x2, det.y2) (0, 255, 0) 2 ∈
        (annotate ts names frame dets).2 := by
  constructor
  · induction dets with
    | nil => simp [annotate]
    | cons d ds ih =>
      simp only [annotate, List.flatMap_cons, List.length_append,
        drawDetection_length, List.length_cons] at ih ⊢
      omega
  · intro det hd
    simp only [annotate, List.mem_flatMap]
    exact ⟨det, hd, by simp [drawDetection]⟩

/-- Instance of the amended C3 theorem on the degenerate detection. -/
theorem everyDetectionDrawnUnfiltered_witness :
    (annotate tsSample [] 0 [detDegenerate]).2.length = 3 * 1 ∧
    DrawOp.rect (detDegenerate.x1, detDegenerate.y1)
        (detDegenerate.x2, detDegenerate.y2) (0, 255, 0) 2 ∈
      (annotate tsSample [] 0 [detDegenerate]).2 :=
  ⟨(everyDetectionDrawnUnfiltered tsSample [] 0 [detDegenerate]).1,
   (everyDetectionDrawnUnfiltered tsSample [] 0 [detDegenerate]).2
     detDegenerate (by simp)⟩

/-- Claim C4, counterexample: for a detection near the right edge of a
100×100 frame, the label is placed above the box (baseline row 40) but the
text spans columns 90..140 and so lies partly outside the frame — the "no
part of the label text lies outside the frame" guarantee fails. -/
theorem labelTextEscapesFrame :
    (drawDetection tsSample [] detOverflow)[2]? =
      some (DrawOp.text "Class_0: 0.50" (90, 38) (0, 0, 0)) ∧
    labelBaseY detOverflow.y1 10 4 = 40 ∧
    specTextInFrame 100 100 detOverflow.x1 40 50 10 = false := by
  decide

/-- Claim C4, amended: the label is drawn at baseline `y1 - 10` when
`y1 - 10 > text_height` (above the box, with the text top strictly below the
frame top), and otherwise at baseline `y1 + text_height + baseline`, at or
below the box's top edge; the rule gives no in-frame guarantee in other
directions (e.g. horizontally). -/
theorem labelPlacementAboveOrBelowBox (ts : TextSize)
    (names : List (Int × String)) (det : Detection) (tw th b : Nat)
    (hts : ts (labelWithScore names det) = ((tw, th), b)) :
    (drawDetection ts names det)[2]? =
      some (DrawOp.text (labelWithScore names det)
        (det.x1, labelBaseY det.y1 th b - (b : Int) / 2) (0, 0, 0)) ∧
    ((th : Int) < det.y1 - 10 →
      labelBaseY det.y1 th b = det.y1 - 10 ∧
      0 < labelBaseY det.y1 th b - th) ∧
    (det.y1 - 10 ≤ (th : Int) →
      labelBaseY det.y1 th b = det.y1 + th + b ∧
      det.y1 ≤ labelBaseY det.y1 th b) := by
  refine ⟨by simp [drawDetection, hts], ?_, ?_⟩
  · intro h
    rw [labelBaseY, if_pos h]
    constructor
    · rfl
    · omega
  · intro h
    rw [labelBaseY, if_neg (by omega)]
    constructor
    · rfl
    · omega

/-- Instance of the amended C4 theorem in the above-the-box case. -/
theorem labelPlacementAboveOrBelowBox_witness :
    (drawDetection tsSample namesSample detSample)[2]? =
      some (DrawOp.text (labelWithScore namesSample detSample)
        (detSample.x1, labelBaseY detSample.y1 10 4 - (4 : Int) / 2)
        (0, 0, 0)) ∧
    labelBaseY detSample.y1 10 4 = detSample.y1 - 10 ∧
    0 < labelBaseY detSample.y1 10 4 - 10 :=
  ⟨(labelPlacementAboveOrBelowBox tsSample namesSample detSample 50 10 4 rfl).1,
   ((labelPlacementAboveOrBelowBox tsSample namesSample detSample 50 10 4
       rfl).2.1 (by decide)).1,
   ((labelPlacementAboveOrBelowBox tsSample namesSample detSample 50 10 4
       rfl).2.1 (by decide)).2⟩

/-- Claim C5: when the model fails to load, `process_video` raises the
model-load error with an empty event trace — the input video is never
opened and no frame is read or written. -/
theorem modelLoadFailsFirst (w : World) (h : w.modelLoads = false) :
    process_video w = ([], some PErr.modelLoadError) := by
  simp [process_video, h]

/-- Instance of the C5 theorem on the model-failure run. -/
theorem modelLoadFailsFirst_witness :
    process_video wModelFail = ([], some PErr.modelLoadError) :=
  modelLoadFailsFirst wModelFail rfl

/-- Claim C6: when the input video cannot be opened, `process_video` raises
`IOError` with an empty trace — in particular the sink is never constructed
(no output file is created) and no frame is written. -/
theorem inputOpenFailureCreatesNoOutput (w : World)
    (h1 : w.modelLoads = true) (h2 : w.capOpens = false) :
    process_video w = ([], some PErr.ioErrorSourceOpen) ∧
    Event.sinkConstructed ∉ (process_video w).1 ∧
    writtenCount (process_video w).1 = 0 := by
  simp [process_video, h1, h2, writtenCount, Event.isWrite]

/-- Instance of the C6 theorem on the bad-input run. -/
theorem inputOpenFailureCreatesNoOutput_witness :
    process_video wCapFail = ([], some PErr.ioErrorSourceOpen) ∧
    Event.sinkConstructed ∉ (process_video wCapFail).1 ∧
    writtenCount (process_video wCapFail).1 = 0 :=
  inputOpenFailureCreatesNoOutput wCapFail rfl rfl

/-- Claim C7: for every detection the single label text drawn is
`<class name>: <score to 2 decimal places>`, where the class name falls back
to `Class_<id>` when the id is absent from the model's name table (no
exception), and `format2` always renders exactly two digits after the
decimal point. -/
theorem labelTextClassNameAndScore (ts : TextSize)
    (names : List (Int × String)) (det : Detection) :
    textStrings (drawDetection ts names det) =
      [lookupClassName names det.class_id ++ ": " ++ format2 det.score] ∧
    (names.lookup det.class_id = none →
      lookupClassName names det.class_id = "Class_" ++ toString det.class_id) ∧
    decimalsAfter (format2 det.score) = 2 := by
  refine ⟨?_, ?_, format2_two_decimals det.score⟩
  · simp [textStrings, drawDetection, labelWithScore]
  · intro h
    simp [lookupClassName, h]

/-- Instance of the C7 theorem on a detection with an unknown class id. -/
theorem labelTextClassNameAndScore_witness :
    textStrings (drawDetection tsSample namesSample detUnknown) =
      [lookupClassName namesSample detUnknown.class_id ++ ": " ++
        format2 detUnknown.score] ∧
    lookupClassName namesSample detUnknown.class_id =
      "Class_" ++ toString detUnknown.class_id ∧
    decimalsAfter (format2 detUnknown.score) = 2 :=
  ⟨(labelTextClassNameAndScore tsSample namesSample detUnknown).1,
   (labelTextClassNameAndScore tsSample namesSample detUnknown).2.1 (by decide),
   (labelTextClassNameAndScore tsSample namesSample detUnknown).2.2⟩

/-- Claim C8: annotation draws only on a copy of the frame, so a frame with
an empty detection list is written unchanged: `annotate` returns the input
frame's pixels with zero drawing operations, and exactly that pair is
written to the sink for the corresponding step. -/
theorem emptyDetectionsFrameUnchanged (w : World) (f : Nat)
    (hm : w.modelLoads = true) (hc : w.capOpens = true)
    (hw : w.writerOpens = true)
    (hnc : ∀ s ∈ w.steps, s.outcome.isCrash = false)
    (hmem : ({ frame := f, outcome := PredictOutcome.ok [] } : FrameStep) ∈
      w.steps) :
    annotate w.textSize w.names f [] = (f, ([] : List DrawOp)) ∧
    Event.frameWritten (f, ([] : List DrawOp)) ∈ (process_video w).1 := by
  have h := runLoop_mem_written w.textSize w.names w.steps f [] hnc hmem
  have ha : annotate w.textSize w.names f [] = (f, ([] : List DrawOp)) := by
    simp [annotate]
  rw [ha] at h
  refine ⟨ha, ?_⟩
  simp only [process_video, hm, hc, hw]
  simp [List.mem_cons, h]

/-- Instance of the C8 theorem on the three-frame run: frame 3 has no
detections and is written pixel-identical. -/
theorem emptyDetectionsFrameUnchanged_witness :
    annotate wMixed.textSize wMixed.names 3 [] = (3, ([] : List DrawOp)) ∧
    Event.frameWritten (3, ([] : List DrawOp)) ∈ (process_video wMixed).1 :=
  emptyDetectionsFrameUnchanged wMixed 3 rfl rfl rfl (by decide) (by decide)

/-- Claim C9: the download route serves a file iff `secure_filename` leaves
the requested name unchanged and a file of that name exists in the output
folder; in every other case it redirects to the index page. -/
theorem downloadOnlySanitizedExisting (secure : String → String)
    (ex : String → Bool) (dir f : String) :
    (download_file secure ex dir f ≠ DownloadResponse.redirectIndex ↔
      (secure f = f ∧ ex f = true)) ∧
    (secure f = f ∧ ex f = true →
      download_file secure ex dir f = DownloadResponse.serveFile dir f) := by
  unfold download_file
  by_cases h1 : secure f = f
  · by_cases h2 : ex f = true
    · simp [h1, h2]
    · simp [h1, h2]
  · simp [h1]

/-- Instance of the C9 theorem: an already-sanitized, existing filename is
served from the output directory. -/
theorem downloadOnlySanitizedExisting_witness :
    download_file id (fun _ => true) "outputs" "processed_a.mp4" =
      DownloadResponse.serveFile "outputs" "processed_a.mp4" :=
  (downloadOnlySanitizedExisting id (fun _ => true) "outputs"
    "processed_a.mp4").2 ⟨rfl, rfl⟩
